import Mathlib

/-!
Shallow embedding of the signal-generation and backtest engine of
src/strategies.py (classes TradingStrategy, SMAStrategy, RSIStrategy,
CombinedStrategy).

Modelling conventions:
 - A price series is a `List ℚ`; a pandas column is a function from bar
   index to `Option ℚ`, where `none` stands for NaN.
 - In pandas every comparison against NaN is False; the Option-valued
   comparison helpers below reproduce that.
 - `Series.rolling(window=w).mean()` is NaN while fewer than `w`
   observations are available, i.e. at indices `t` with `t + 1 < w`.
 - `Series.cumprod`, `Series.expanding().max()`, `Series.min()`,
   `Series.mean()` and `Series.std()` all skip NaN entries (pandas
   default `skipna=True`); `Series.std()` uses `ddof=1`, so it is NaN
   when fewer than two non-NaN observations exist.
 - Python float division of a positive number by `0.0` yields `inf` and
   `0.0 / 0.0` yields NaN; where the source relies on this (the RSI
   `rs = gain / loss` step) the embedding reproduces the resulting value
   exactly (see `rsiOf`).
-/

namespace Trading

/-- Sum of `x 0, ..., x (n - 1)`. -/
def sumOver (x : Nat → ℚ) : Nat → ℚ
  | 0 => 0
  | n + 1 => sumOver x n + x n

/-- Number of indices `t < n` satisfying `p`. -/
def countSat (p : Nat → Bool) : Nat → Nat
  | 0 => 0
  | n + 1 => countSat p n + (if p n then 1 else 0)

/-- Pandas series comparison `a < b`: False when either side is NaN. -/
def olt (a b : Option ℚ) : Bool :=
  match a, b with
  | some x, some y => decide (x < y)
  | _, _ => false

/-- Pandas series comparison `a > b`: False when either side is NaN. -/
def ogt (a b : Option ℚ) : Bool :=
  match a, b with
  | some x, some y => decide (y < x)
  | _, _ => false

/-- Pandas series comparison `a >= b`: False when either side is NaN. -/
def oge (a b : Option ℚ) : Bool :=
  match a, b with
  | some x, some y => decide (y ≤ x)
  | _, _ => false

/-- Pandas series comparison `a <= b`: False when either side is NaN. -/
def ole (a b : Option ℚ) : Bool :=
  match a, b with
  | some x, some y => decide (x ≤ y)
  | _, _ => false

/-- Close price of bar `t` (column `signals['price']`, strategies.py line 23). -/
def priceAt (prices : List ℚ) (t : Nat) : ℚ := prices.getD t 0

/-- Embedding of `Series.rolling(window=w).mean()` applied to a NaN-free
series `x`: NaN while the window is incomplete, otherwise the mean of the
last `w` observations. -/
def rollMean (x : Nat → ℚ) (w : Nat) (t : Nat) : Option ℚ :=
  if t + 1 < w then none
  else some (sumOver (fun i => x (t - i)) w / (w : ℚ))

/-- Moving average column of the close price over window `w`
(strategies.py lines 121-122 and 197-198). -/
def smaCol (prices : List ℚ) (w : Nat) (t : Nat) : Option ℚ :=
  rollMean (priceAt prices) w t

/-- Raw SMA trend state before the `.diff()` call (strategies.py lines
127-129): start from 0, set 1 where `short_ma > long_ma`, then set -1
where `short_ma < long_ma`; NaN comparisons select nothing. -/
def trendState (prices : List ℚ) (sw lw : Nat) (t : Nat) : Int :=
  let s := smaCol prices sw t
  let l := smaCol prices lw t
  let x : Int := 0
  let x := if ogt s l then 1 else x
  let x := if olt s l then -1 else x
  x

/-- Emitted SMA signal (strategies.py lines 132-133): first difference of
the trend state, with the NaN at bar 0 filled with 0. -/
def smaSignal (prices : List ℚ) (sw lw : Nat) : Nat → Int
  | 0 => 0
  | t + 1 => trendState prices sw lw (t + 1) - trendState prices sw lw t

/-- Column `delta = price.diff()` (strategies.py lines 157 and 201). -/
def deltaAt (prices : List ℚ) : Nat → Option ℚ
  | 0 => none
  | t + 1 => some (priceAt prices (t + 1) - priceAt prices t)

/-- Column `delta.where(delta > 0, 0)` (strategies.py lines 158 and 202):
the NaN delta of bar 0 fails the comparison and is replaced by 0. -/
def gainAt (prices : List ℚ) (t : Nat) : ℚ :=
  match deltaAt prices t with
  | none => 0
  | some d => if 0 < d then d else 0

/-- Column `(-delta.where(delta < 0, 0))` (strategies.py lines 159 and
203): the magnitude of negative deltas, 0 elsewhere (including bar 0). -/
def lossAt (prices : List ℚ) (t : Nat) : ℚ :=
  match deltaAt prices t with
  | none => 0
  | some d => if d < 0 then -d else 0

/-- Rolling average gain over `period` bars (strategies.py lines 158, 202). -/
def avgGain (prices : List ℚ) (period t : Nat) : Option ℚ :=
  rollMean (gainAt prices) period t

/-- Rolling average loss over `period` bars (strategies.py lines 159, 203). -/
def avgLoss (prices : List ℚ) (period t : Nat) : Option ℚ :=
  rollMean (lossAt prices) period t

/-- Embedding of `rs = gain / loss; rsi = 100 - (100 / (1 + rs))`
(strategies.py lines 161-162 and 204-205) under Python float semantics:
if either input is NaN the result is NaN; if `loss = 0` and `gain ≠ 0`
then `rs` is infinite and `100 / (1 + rs)` is 0, so the RSI is exactly
100; if `loss = 0` and `gain = 0` then `rs` is `0.0 / 0.0 = NaN` and the
RSI is NaN; otherwise the arithmetic is exact. -/
def rsiOf (gain loss : Option ℚ) : Option ℚ :=
  match gain, loss with
  | some g, some l =>
      if l = 0 then (if g = 0 then none else some 100)
      else some (100 - 100 / (1 + g / l))
  | _, _ => none

/-- RSI column (strategies.py lines 157-162 and 201-205). -/
def rsiAt (prices : List ℚ) (period t : Nat) : Option ℚ :=
  rsiOf (avgGain prices period t) (avgLoss prices period t)

/-- Column `rsi.shift(1)`: NaN at bar 0, previous bar's RSI afterwards. -/
def rsiShift (prices : List ℚ) (period : Nat) : Nat → Option ℚ
  | 0 => none
  | t + 1 => rsiAt prices period t

/-- RSI strategy signal (strategies.py lines 165-179): start from 0, set 1
where the RSI crosses below `oversold`, then set -1 where it crosses above
`overbought`; the second assignment overwrites the first on overlap. -/
def rsiSignal (prices : List ℚ) (period : Nat) (os ob : ℚ) (t : Nat) : Int :=
  let buy := olt (rsiAt prices period t) (some os) &&
             oge (rsiShift prices period t) (some os)
  let sell := ogt (rsiAt prices period t) (some ob) &&
              ole (rsiShift prices period t) (some ob)
  let x : Int := 0
  let x := if buy then 1 else x
  let x := if sell then -1 else x
  x

/-- Raw combined-strategy state before the `.diff()` call (strategies.py
lines 208-222): start from 0, set 1 where `short_ma > long_ma` and
`rsi < oversold`, then set -1 where `short_ma < long_ma` or
`rsi > overbought`; the sell assignment overwrites the buy one. -/
def combinedState (prices : List ℚ) (sw lw period : Nat) (os ob : ℚ) (t : Nat) : Int :=
  let buy := ogt (smaCol prices sw t) (smaCol prices lw t) &&
             olt (rsiAt prices period t) (some os)
  let sell := olt (smaCol prices sw t) (smaCol prices lw t) ||
              ogt (rsiAt prices period t) (some ob)
  let x : Int := 0
  let x := if buy then 1 else x
  let x := if sell then -1 else x
  x

/-- Emitted combined-strategy signal (strategies.py lines 225-226):
first difference of the raw state, bar 0 filled with 0. -/
def combinedSignal (prices : List ℚ) (sw lw period : Nat) (os ob : ℚ) : Nat → Int
  | 0 => 0
  | t + 1 => combinedState prices sw lw period os ob (t + 1) -
             combinedState prices sw lw period os ob t

/-- The `signal.replace(-1, 0)` step of the position computation
(strategies.py line 44): the value -1 is replaced by 0, every other
value (including -2) is kept. -/
def replSell (s : Int) : Int := if s = -1 then 0 else s

/-- Position column `signal.replace(-1, 0).cumsum()` (strategies.py
line 44). -/
def position (sig : Nat → Int) : Nat → Int
  | 0 => replSell (sig 0)
  | t + 1 => position sig t + replSell (sig (t + 1))

/-- Column `price.pct_change()` (strategies.py line 47): NaN at bar 0. -/
def marketReturn (prices : List ℚ) : Nat → Option ℚ
  | 0 => none
  | t + 1 => some ((priceAt prices (t + 1) - priceAt prices t) / priceAt prices t)

/-- Column `position.shift(1) * market_return` (strategies.py line 48):
NaN at bar 0 (both factors are NaN there), the prior bar's position times
the current bar's market return afterwards. -/
def strategyReturn (sig : Nat → Int) (prices : List ℚ) : Nat → Option ℚ
  | 0 => none
  | t + 1 => (marketReturn prices (t + 1)).map (fun m => (position sig t : ℚ) * m)

/-- Column `1 + strategy_return`. -/
def onePlusSR (sig : Nat → Int) (prices : List ℚ) (t : Nat) : Option ℚ :=
  (strategyReturn sig prices t).map (fun r => 1 + r)

/-- Running product of the non-NaN entries of `1 + strategy_return` up to
and including bar `t` (the accumulator of the skipna cumprod). -/
def cumAcc (sig : Nat → Int) (prices : List ℚ) : Nat → ℚ
  | 0 => match onePlusSR sig prices 0 with
         | none => 1
         | some v => v
  | t + 1 => cumAcc sig prices t *
      (match onePlusSR sig prices (t + 1) with
       | none => 1
       | some v => v)

/-- Column `(1 + strategy_return).cumprod()` (strategies.py line 52):
NaN exactly where the input is NaN, otherwise the running product of the
non-NaN entries so far. -/
def cumStrategy (sig : Nat → Int) (prices : List ℚ) (t : Nat) : Option ℚ :=
  (onePlusSR sig prices t).map (fun _ => cumAcc sig prices t)

/-- Embedding of `Series.expanding().max()` with NaN skipping. -/
def expMax (x : Nat → Option ℚ) : Nat → Option ℚ
  | 0 => x 0
  | t + 1 =>
      match expMax x t, x (t + 1) with
      | none, v => v
      | some m, none => some m
      | some m, some v => some (max m v)

/-- Drawdown column `(cumulative - running_max) / running_max`
(strategies.py line 68): NaN wherever the cumulative value is NaN. -/
def drawdownCol (sig : Nat → Int) (prices : List ℚ) (t : Nat) : Option ℚ :=
  match cumStrategy sig prices t, expMax (cumStrategy sig prices) t with
  | some c, some m => some ((c - m) / m)
  | _, _ => none

/-- Embedding of `Series.min()` over the first `n` entries with NaN
skipping: NaN when every entry is NaN. -/
def seriesMin (x : Nat → Option ℚ) : Nat → Option ℚ
  | 0 => none
  | n + 1 =>
      match seriesMin x n, x n with
      | none, v => v
      | some m, none => some m
      | some m, some v => some (min m v)

/-- Metric `max_drawdown = drawdown.min() * 100` (strategies.py line 69). -/
def maxDrawdown (sig : Nat → Int) (prices : List ℚ) : Option ℚ :=
  (seriesMin (drawdownCol sig prices) prices.length).map (fun d => d * 100)

/-- `len(self.signals[self.signals['signal'] != 0])` (strategies.py line 62). -/
def tradesCount (sig : Nat → Int) (n : Nat) : Nat :=
  countSat (fun t => sig t != 0) n

/-- `len(self.signals[self.signals['strategy_return'] > 0])` (strategies.py
line 61): a NaN return is not `> 0`. -/
def winsCount (sig : Nat → Int) (prices : List ℚ) : Nat :=
  countSat (fun t => ogt (strategyReturn sig prices t) (some 0)) prices.length

/-- Metric `win_rate` (strategies.py line 63):
`len(winning) / len(trades) * 100 if len(trades) > 0 else 0`. -/
def winRate (sig : Nat → Int) (prices : List ℚ) : ℚ :=
  if 0 < tradesCount sig prices.length then
    (winsCount sig prices : ℚ) / (tradesCount sig prices.length : ℚ) * 100
  else 0

/-- Column `excess_returns = strategy_return - risk_free_rate / 252` with
`risk_free_rate = 0.06` (strategies.py lines 72-73). -/
def excessAt (sig : Nat → Int) (prices : List ℚ) (t : Nat) : Option ℚ :=
  (strategyReturn sig prices t).map (fun r => r - (6 / 100) / 252)

/-- Number of non-NaN excess-return observations. -/
def excessCount (sig : Nat → Int) (prices : List ℚ) : Nat :=
  countSat (fun t => (excessAt sig prices t).isSome) prices.length

/-- Sum of the non-NaN excess-return observations. -/
def excessSum (sig : Nat → Int) (prices : List ℚ) : ℚ :=
  sumOver (fun t => (excessAt sig prices t).getD 0) prices.length

/-- `excess_returns.mean()`: pandas skips NaN and returns NaN when no
observation remains. -/
def excessMean (sig : Nat → Int) (prices : List ℚ) : Option ℚ :=
  if excessCount sig prices = 0 then none
  else some (excessSum sig prices / (excessCount sig prices : ℚ))

/-- Square of `excess_returns.std()` (sample variance, `ddof=1`): NaN when
fewer than two non-NaN observations exist.  The standard deviation itself
is its square root; it is 0 exactly when this variance is 0 and NaN
exactly when this variance is NaN. -/
def excessVar (sig : Nat → Int) (prices : List ℚ) : Option ℚ :=
  if excessCount sig prices ≤ 1 then none
  else some
    ((sumOver
        (fun t =>
          match excessAt sig prices t with
          | none => 0
          | some x => (x - excessSum sig prices / (excessCount sig prices : ℚ)) ^ 2)
        prices.length)
      / ((excessCount sig prices : ℚ) - 1))

/-- Result of the Sharpe computation (strategies.py line 74).  `nan` is a
NaN result, `zero` the guarded 0, and `expr m v` the float value
`sqrt 252 * m / sqrt v` where `m` is the mean excess return and `v` the
(positive) sample variance of the excess returns; `sqrt` is irrational in
general, so the value is kept symbolic. -/
inductive SharpeVal where
  | nan : SharpeVal
  | zero : SharpeVal
  | expr (m v : ℚ) : SharpeVal
deriving DecidableEq, Repr

/-- Metric `sharpe_ratio` (strategies.py line 74):
`np.sqrt(252) * excess.mean() / excess.std() if excess.std() != 0 else 0`.
A NaN standard deviation satisfies `std != 0` in Python, so the guard is
passed and the division yields NaN. -/
def sharpeOf (sig : Nat → Int) (prices : List ℚ) : SharpeVal :=
  match excessVar sig prices with
  | none => SharpeVal.nan
  | some v =>
      if v = 0 then SharpeVal.zero
      else
        match excessMean sig prices with
        | none => SharpeVal.nan
        | some m => SharpeVal.expr m v

/-- Labels produced by `get_current_signal` (strategies.py line 94). -/
inductive SigLabel where
  | BUY : SigLabel
  | SELL : SigLabel
  | HOLD : SigLabel
deriving DecidableEq, Repr

/-- `signal_map.get(latest_signal, 'HOLD')` (strategies.py lines 94-96):
1 maps to BUY, -1 to SELL, everything else to HOLD. -/
def labelOf (s : Int) : SigLabel :=
  if s = 1 then SigLabel.BUY else if s = -1 then SigLabel.SELL else SigLabel.HOLD

/-- The mutable `self.signals` frame as far as `get_current_signal` reads
it: its row count, its price column and its signal column. -/
structure SigState where
  length : Nat
  priceCol : Nat → ℚ
  signalCol : Nat → Int

/-- State of `self.signals` right after `TradingStrategy.__init__`
(strategies.py lines 21-25): one row per input bar, price column copied
from the close prices, signal column all 0. -/
def initState (prices : List ℚ) : SigState :=
  { length := prices.length, priceCol := priceAt prices, signalCol := fun _ => 0 }

/-- State of `self.signals` after `SMAStrategy.generate_signals` ran. -/
def smaGenerated (prices : List ℚ) (sw lw : Nat) : SigState :=
  { length := prices.length, priceCol := priceAt prices,
    signalCol := smaSignal prices sw lw }

/-- Embedding of `TradingStrategy.get_current_signal` (strategies.py lines
86-99).  The guard regenerates signals only when `len(self.signals) == 0`;
since `__init__` fills `self.signals` with one row per input bar, that
branch is reachable only for an empty input frame, where the subsequent
`iloc[-1]` faults on the empty frame (modelled as `none`).  For a
non-empty state the function reads the last row as-is, without invoking
any signal generation. -/
def getCurrentSignal (st : SigState) : Option (SigLabel × ℚ × Nat) :=
  if st.length = 0 then none
  else some (labelOf (st.signalCol (st.length - 1)),
             st.priceCol (st.length - 1), st.length - 1)

/-- Embedding of `SMAStrategy.__init__` (strategies.py lines 105-116): it
stores the data and the two windows and performs no validation; the
`Except` layer is the Python exception channel, and no path raises. -/
def smaNew (data : List ℚ) (sw lw : Nat) : Except String (SigState × Nat × Nat) :=
  Except.ok (initState data, sw, lw)

/-- Embedding of `RSIStrategy.__init__` (strategies.py lines 139-152):
stores period and thresholds, performs no validation, never raises. -/
def rsiNew (data : List ℚ) (period : Nat) (os ob : ℚ) :
    Except String (SigState × Nat × ℚ × ℚ) :=
  Except.ok (initState data, period, os, ob)

/-- Embedding of `CombinedStrategy.__init__` (strategies.py lines
185-192): stores all five parameters, performs no validation, never
raises. -/
def combinedNew (data : List ℚ) (sw lw period : Nat) (os ob : ℚ) :
    Except String (SigState × Nat × Nat × Nat × ℚ × ℚ) :=
  Except.ok (initState data, sw, lw, period, os, ob)

/-! ## Claim theorems -/

/-- C1: the position column is not the claimed clamped running sum.  On
prices [5, 10, 5] with SMA windows (1, 2) the crossover delta at bar 2 is
-2, which `replace(-1, 0)` leaves untouched, so the position becomes -1 —
negative and outside {0, 1}.  On prices [5, 10, 10] the sell signal -1 at
bar 2 is replaced by 0 instead of closing the open position, so the
position stays 1 after the sell instead of returning to 0. -/
theorem c1_backtest_position_eval :
    position (smaSignal [5, 10, 5] 1 2) 2 = -1 ∧
    smaSignal [5, 10, 5] 1 2 2 = -2 ∧
    position (smaSignal [5, 10, 10] 1 2) 2 = 1 ∧
    smaSignal [5, 10, 10] 1 2 2 = -1 := by
  norm_num [position, smaSignal, trendState, smaCol, rollMean, priceAt, olt, ogt,
    replSell, sumOver]

/-- C3 counterexample: on prices [10, 5, 10] with SMA windows (1, 2) the
trend state jumps from -1 to +1 between bars 1 and 2, so the emitted
signal at bar 2 is 2, outside the claimed set {-1, 0, +1}. -/
theorem c3_signal_range_cx :
    smaSignal [10, 5, 10] 1 2 2 = 2 ∧
    ¬(smaSignal [10, 5, 10] 1 2 2 = -1 ∨ smaSignal [10, 5, 10] 1 2 2 = 0 ∨
      smaSignal [10, 5, 10] 1 2 2 = 1) := by
  norm_num [smaSignal, trendState, smaCol, rollMean, priceAt, olt, ogt, sumOver]

/-- The raw SMA trend state always lies in [-1, 1]. -/
theorem trendState_bounds (prices : List ℚ) (sw lw t : Nat) :
    -1 ≤ trendState prices sw lw t ∧ trendState prices sw lw t ≤ 1 := by
  simp only [trendState]
  split
  · omega
  · split <;> omega

/-- The raw combined-strategy state always lies in [-1, 1]. -/
theorem combinedState_bounds (prices : List ℚ) (sw lw period : Nat) (os ob : ℚ)
    (t : Nat) :
    -1 ≤ combinedState prices sw lw period os ob t ∧
    combinedState prices sw lw period os ob t ≤ 1 := by
  simp only [combinedState]
  split
  · omega
  · split <;> omega

/-- C3 (amended): RSI signals always lie in {-1, 0, +1}, while SMA and
Combined signals — first differences of a state valued in {-1, 0, +1} —
lie in {-2, -1, 0, 1, 2}. -/
theorem c3_signal_range (prices : List ℚ) (sw lw period : Nat) (os ob : ℚ)
    (t : Nat) :
    (rsiSignal prices period os ob t = -1 ∨ rsiSignal prices period os ob t = 0 ∨
     rsiSignal prices period os ob t = 1) ∧
    (-2 ≤ smaSignal prices sw lw t ∧ smaSignal prices sw lw t ≤ 2) ∧
    (-2 ≤ combinedSignal prices sw lw period os ob t ∧
     combinedSignal prices sw lw period os ob t ≤ 2) := by
  refine ⟨?_, ?_, ?_⟩
  · simp only [rsiSignal]
    split
    · omega
    · split <;> omega
  · cases t with
    | zero => simp [smaSignal]
    | succ k =>
        have h1 := trendState_bounds prices sw lw (k + 1)
        have h2 := trendState_bounds prices sw lw k
        simp only [smaSignal]
        omega
  · cases t with
    | zero => simp [combinedSignal]
    | succ k =>
        have h1 := combinedState_bounds prices sw lw period os ob (k + 1)
        have h2 := combinedState_bounds prices sw lw period os ob k
        simp only [combinedSignal]
        omega

/-- C2: the strategy return at a bar with a predecessor is the position
entering the bar times that bar's market return, and both returns are NaN
at the first bar.  The positivity hypothesis marks the domain on which
the rational embedding of `pct_change` agrees with the float source. -/
theorem c2_lag_one_return (prices : List ℚ) (sig : Nat → Int) (t : Nat)
    (_hpos : 0 < priceAt prices t) :
    marketReturn prices (t + 1) =
      some ((priceAt prices (t + 1) - priceAt prices t) / priceAt prices t) ∧
    strategyReturn sig prices (t + 1) =
      some ((position sig t : ℚ) *
        ((priceAt prices (t + 1) - priceAt prices t) / priceAt prices t)) ∧
    marketReturn prices 0 = none ∧ strategyReturn sig prices 0 = none :=
  ⟨rfl, rfl, rfl, rfl⟩

/-- Witness for C2 at prices [10, 20] with a constant buy signal: the
market return at bar 1 is 1 (a 100 percent move), the strategy return is
the bar-0 position (1) times that move, and both are NaN at bar 0. -/
theorem c2_lag_one_return_witness :
    marketReturn [10, 20] 1 = some 1 ∧
    strategyReturn (fun _ => 1) [10, 20] 1 = some 1 ∧
    marketReturn [10, 20] 0 = none ∧
    strategyReturn (fun _ => 1) [10, 20] 0 = none := by
  have h := c2_lag_one_return [10, 20] (fun _ => 1) 0 (by norm_num [priceAt])
  refine ⟨?_, ?_, h.2.2.1, h.2.2.2⟩
  · have h1 : marketReturn [10, 20] 1 =
        some ((priceAt [10, 20] 1 - priceAt [10, 20] 0) / priceAt [10, 20] 0) := h.1
    rw [h1]
    norm_num [priceAt]
  · have h2 : strategyReturn (fun _ => 1) [10, 20] 1 =
        some ((position (fun _ => 1) 0 : ℚ) *
          ((priceAt [10, 20] 1 - priceAt [10, 20] 0) / priceAt [10, 20] 0)) := h.2.1
    rw [h2]
    norm_num [priceAt, position, replSell]

/-- C4 counterexample: constructing with short_window = long_window = 50,
with period 0, and with oversold 70 ≥ overbought 30 all succeed — nothing
is rejected at construction time. -/
theorem c4_constructors_cx :
    (smaNew [100] 50 50).isOk = true ∧
    (rsiNew [100] 0 70 30).isOk = true ∧
    (combinedNew [100] 50 50 0 70 30).isOk = true := by
  refine ⟨rfl, rfl, rfl⟩

/-- C4 (amended): none of the three constructors validates its
parameters; every parameter set whatsoever is accepted and construction
always succeeds, storing the parameters unchanged. -/
theorem c4_constructors_total (data : List ℚ) (sw lw period : Nat) (os ob : ℚ) :
    smaNew data sw lw = Except.ok (initState data, sw, lw) ∧
    rsiNew data period os ob = Except.ok (initState data, period, os, ob) ∧
    combinedNew data sw lw period os ob =
      Except.ok (initState data, sw, lw, period, os, ob) :=
  ⟨rfl, rfl, rfl⟩

/-- C5 counterexample: on prices [10, 20] with windows (1, 2), period 1,
oversold 50 and overbought 100, bar 1 has a bullish SMA condition and the
RSI sits exactly at the overbought threshold (100), yet the raw state is
0 — not -1 — and no sell signal is emitted: the sell comparison is the
strict `rsi > overbought`. -/
theorem c5_combined_cx :
    ogt (smaCol [10, 20] 1 1) (smaCol [10, 20] 2 1) = true ∧
    rsiAt [10, 20] 1 1 = some 100 ∧
    combinedState [10, 20] 1 2 1 50 100 1 = 0 ∧
    combinedState [10, 20] 1 2 1 50 100 1 ≠ -1 ∧
    combinedSignal [10, 20] 1 2 1 50 100 1 = 0 := by
  norm_num [combinedSignal, combinedState, smaCol, rollMean, priceAt, olt, ogt,
    rsiAt, rsiOf, avgGain, avgLoss, gainAt, lossAt, deltaAt, sumOver]

/-- A strictly-greater pandas comparison refutes the strictly-smaller one
on the same operands. -/
theorem olt_eq_false_of_ogt (a b : Option ℚ) (h : ogt a b = true) :
    olt a b = false := by
  cases a with
  | none => rfl
  | some x =>
      cases b with
      | none => rfl
      | some y =>
          simp only [ogt, decide_eq_true_eq] at h
          simp only [olt, decide_eq_false_iff_not]
          exact not_lt.mpr (le_of_lt h)

/-- A value strictly below a threshold is not at or above it. -/
theorem oge_eq_false_of_olt (a : Option ℚ) (c : ℚ) (h : olt a (some c) = true) :
    oge a (some c) = false := by
  cases a with
  | none => rfl
  | some x =>
      simp only [olt, decide_eq_true_eq] at h
      simp only [oge, decide_eq_false_iff_not]
      exact not_le.mpr h

/-- A value strictly below a low threshold is not strictly above a higher
one. -/
theorem ogt_eq_false_of_olt (a : Option ℚ) (c d : ℚ) (hcd : c < d)
    (h : olt a (some c) = true) : ogt a (some d) = false := by
  cases a with
  | none => rfl
  | some x =>
      simp only [olt, decide_eq_true_eq] at h
      simp only [ogt, decide_eq_false_iff_not]
      exact not_lt.mpr (le_of_lt (lt_trans h hcd))

/-- No value is strictly above itself. -/
theorem ogt_self_eq_false (c : ℚ) : ogt (some c) (some c) = false := by
  simp [ogt]

/-- C5 (amended): the combined raw state follows the source's assignment
order — the disjunctive sell rule, checked with strict comparisons,
overwrites the conjunctive buy rule; a bar whose SMA condition is bullish
and whose RSI sits exactly at the overbought threshold does not get a
sell state (the comparison `rsi > overbought` is strict); a sell state
and sell signal do fire when the RSI strictly exceeds the threshold, as
on prices [10, 20] with windows (1, 2), period 1, oversold 50 and
overbought 90, where the bar-1 RSI is 100. -/
theorem c5_combined_state (prices : List ℚ) (sw lw period : Nat) (os ob : ℚ) :
    (∀ t, combinedState prices sw lw period os ob t =
        if olt (smaCol prices sw t) (smaCol prices lw t) ||
           ogt (rsiAt prices period t) (some ob) then -1
        else if ogt (smaCol prices sw t) (smaCol prices lw t) &&
                olt (rsiAt prices period t) (some os) then 1
        else 0) ∧
    (∀ t, ogt (smaCol prices sw t) (smaCol prices lw t) = true →
        rsiAt prices period t = some ob →
        combinedState prices sw lw period os ob t ≠ -1) ∧
    combinedState [10, 20] 1 2 1 50 90 1 = -1 ∧
    combinedSignal [10, 20] 1 2 1 50 90 1 = -1 := by
  refine ⟨fun t => rfl, ?_, ?_, ?_⟩
  · intro t hgt hrsi
    have h1 : olt (smaCol prices sw t) (smaCol prices lw t) = false :=
      olt_eq_false_of_ogt _ _ hgt
    have h2 : ogt (rsiAt prices period t) (some ob) = false := by
      rw [hrsi]
      exact ogt_self_eq_false ob
    simp only [combinedState, h1, h2, Bool.or_self, Bool.false_eq_true, if_false]
    split <;> omega
  · norm_num [combinedState, smaCol, rollMean, priceAt, olt, ogt, rsiAt, rsiOf,
      avgGain, avgLoss, gainAt, lossAt, deltaAt, sumOver]
  · norm_num [combinedSignal, combinedState, smaCol, rollMean, priceAt, olt, ogt,
      rsiAt, rsiOf, avgGain, avgLoss, gainAt, lossAt, deltaAt, sumOver]

/-- Witness for C5: on prices [10, 20] with windows (1, 2), period 1,
oversold 50 and overbought 100, the bar-1 SMA condition is bullish and
the RSI equals the overbought threshold exactly, and the raw state is
not a sell state. -/
theorem c5_combined_state_witness :
    ogt (smaCol [10, 20] 1 1) (smaCol [10, 20] 2 1) = true ∧
    rsiAt [10, 20] 1 1 = some 100 ∧
    combinedState [10, 20] 1 2 1 50 100 1 ≠ -1 := by
  have hs : ogt (smaCol [10, 20] 1 1) (smaCol [10, 20] 2 1) = true := by
    norm_num [smaCol, rollMean, priceAt, ogt, sumOver]
  have hr : rsiAt [10, 20] 1 1 = some 100 := by
    norm_num [rsiAt, rsiOf, avgGain, avgLoss, gainAt, lossAt, deltaAt, rollMean,
      priceAt, sumOver]
  exact ⟨hs, hr, (c5_combined_state [10, 20] 1 2 1 50 100).2.1 1 hs hr⟩

/-- C6: for valid thresholds (oversold < overbought) the RSI strategy is
an edge-triggered detector: +1 fires exactly where the RSI moves from at
or above `oversold` to strictly below it, -1 exactly where it moves from
at or below `overbought` to strictly above it; inside a contiguous
excursion below `oversold` only the entry bar can carry a +1, and the
entry bar does carry one — so a dip that stays below the threshold
produces exactly one buy signal. -/
theorem c6_rsi_edge_trigger (prices : List ℚ) (period : Nat) (os ob : ℚ)
    (hth : os < ob) :
    (∀ t, rsiSignal prices period os ob t = 1 ↔
        (olt (rsiAt prices period t) (some os) = true ∧
         oge (rsiShift prices period t) (some os) = true)) ∧
    (∀ t, rsiSignal prices period os ob t = -1 ↔
        (ogt (rsiAt prices period t) (some ob) = true ∧
         ole (rsiShift prices period t) (some ob) = true)) ∧
    (∀ a b, (∀ j, a ≤ j → j ≤ b → olt (rsiAt prices period j) (some os) = true) →
        ∀ t, a < t → t ≤ b → rsiSignal prices period os ob t ≠ 1) ∧
    (∀ a, olt (rsiAt prices period (a + 1)) (some os) = true →
        oge (rsiAt prices period a) (some os) = true →
        rsiSignal prices period os ob (a + 1) = 1) := by
  have hbuy_not_sell : ∀ t, olt (rsiAt prices period t) (some os) = true →
      ogt (rsiAt prices period t) (some ob) = false := fun t h =>
    ogt_eq_false_of_olt _ os ob hth h
  have main1 : ∀ t, rsiSignal prices period os ob t = 1 ↔
      (olt (rsiAt prices period t) (some os) = true ∧
       oge (rsiShift prices period t) (some os) = true) := by
    intro t
    simp only [rsiSignal]
    constructor
    · intro h
      rcases hb : (olt (rsiAt prices period t) (some os) &&
          oge (rsiShift prices period t) (some os)) with _ | _
      · rcases hs : (ogt (rsiAt prices period t) (some ob) &&
            ole (rsiShift prices period t) (some ob)) with _ | _
        · rw [hb, hs] at h
          simp at h
        · rw [hb, hs] at h
          simp at h
      · exact Bool.and_eq_true _ _ |>.mp hb
    · rintro ⟨h1, h2⟩
      have hs : (ogt (rsiAt prices period t) (some ob) &&
          ole (rsiShift prices period t) (some ob)) = false := by
        rw [hbuy_not_sell t h1]
        rfl
      rw [h1, h2, hs]
      rfl
  have main2 : ∀ t, rsiSignal prices period os ob t = -1 ↔
      (ogt (rsiAt prices period t) (some ob) = true ∧
       ole (rsiShift prices period t) (some ob) = true) := by
    intro t
    simp only [rsiSignal]
    constructor
    · intro h
      rcases hs : (ogt (rsiAt prices period t) (some ob) &&
          ole (rsiShift prices period t) (some ob)) with _ | _
      · rw [hs] at h
        rcases hb : (olt (rsiAt prices period t) (some os) &&
            oge (rsiShift prices period t) (some os)) with _ | _
        · rw [hb] at h
          simp at h
        · rw [hb] at h
          simp at h
      · exact Bool.and_eq_true _ _ |>.mp hs
    · rintro ⟨h1, h2⟩
      rw [h1, h2]
      rfl
  refine ⟨main1, main2, ?_, ?_⟩
  · intro a b hexc t hat htb h1
    obtain ⟨k, rfl⟩ : ∃ k, t = k + 1 := ⟨t - 1, by omega⟩
    have hk : olt (rsiAt prices period k) (some os) = true :=
      hexc k (by omega) (by omega)
    have hsh : oge (rsiShift prices period (k + 1)) (some os) = false := by
      have := oge_eq_false_of_olt (rsiAt prices period k) os hk
      simpa [rsiShift] using this
    have h2 := (main1 (k + 1)).mp h1
    rw [hsh] at h2
    exact Bool.false_ne_true h2.2
  · intro a h1 h2
    refine (main1 (a + 1)).mpr ⟨h1, ?_⟩
    simpa [rsiShift] using h2

/-- Witness for C6: on prices [10, 20, 19, 18, 17, 16, 15] with period 1,
oversold 50 and overbought 60, the RSI is 100 at bar 1 and 0 from bar 2
on; the excursion below 50 starting at bar 2 carries exactly one +1 — it
fires at bar 2 and not at bar 4. -/
theorem c6_rsi_edge_trigger_witness :
    rsiSignal [10, 20, 19, 18, 17, 16, 15] 1 50 60 2 = 1 ∧
    rsiSignal [10, 20, 19, 18, 17, 16, 15] 1 50 60 4 ≠ 1 := by
  have H := c6_rsi_edge_trigger [10, 20, 19, 18, 17, 16, 15] 1 50 60 (by norm_num)
  constructor
  · exact H.2.2.2 1
      (by norm_num [rsiAt, rsiOf, avgGain, avgLoss, gainAt, lossAt, deltaAt,
        rollMean, priceAt, sumOver, olt])
      (by norm_num [rsiAt, rsiOf, avgGain, avgLoss, gainAt, lossAt, deltaAt,
        rollMean, priceAt, sumOver, oge])
  · exact H.2.2.1 2 6
      (fun j h2 h6 => by
        interval_cases j <;>
          norm_num [rsiAt, rsiOf, avgGain, avgLoss, gainAt, lossAt, deltaAt,
            rollMean, priceAt, sumOver, olt])
      4 (by omega) (by omega)

/-- C7 counterexample: on the flat series [10, 10, 10] with period 2, the
window at bar 1 is complete and the average loss is exactly 0, but the
average gain is also 0, so `rs = 0/0` is NaN and the RSI is NaN — not
100.  The avg_loss = 0 case is not special-cased. -/
theorem c7_rsi_loss_cx :
    avgLoss [10, 10, 10] 2 1 = some 0 ∧
    rsiAt [10, 10, 10] 2 1 = none ∧
    rsiAt [10, 10, 10] 2 1 ≠ some 100 := by
  have h : rsiAt [10, 10, 10] 2 1 = none := by
    norm_num [rsiAt, rsiOf, avgGain, avgLoss, gainAt, lossAt, deltaAt, rollMean,
      priceAt, sumOver]
  refine ⟨?_, h, by rw [h]; exact fun hc => Option.noConfusion hc⟩
  norm_num [avgLoss, lossAt, deltaAt, rollMean, priceAt, sumOver]

/-- C7 (amended): at a bar with a complete window and average loss
exactly 0, the RSI is 100 when the average gain is nonzero (the float
division yields an infinite relative strength), and NaN when the average
gain is also 0 (`0.0 / 0.0` is NaN, as on a flat series). -/
theorem c7_rsi_loss_zero (prices : List ℚ) (period t : Nat) (g : ℚ)
    (hl : avgLoss prices period t = some 0) (hg : avgGain prices period t = some g) :
    (g ≠ 0 → rsiAt prices period t = some 100) ∧
    (g = 0 → rsiAt prices period t = none) := by
  unfold rsiAt rsiOf
  rw [hg, hl]
  constructor
  · intro hgne
    simp [hgne]
  · intro hg0
    simp [hg0]

/-- Witness for C7: on the rising series [10, 20, 30] with period 2 the
average loss at bar 1 is 0, the average gain is 5, and the RSI is 100. -/
theorem c7_rsi_loss_zero_witness :
    avgLoss [10, 20, 30] 2 1 = some 0 ∧ avgGain [10, 20, 30] 2 1 = some 5 ∧
    rsiAt [10, 20, 30] 2 1 = some 100 :=
  have hl : avgLoss [10, 20, 30] 2 1 = some 0 := by
    norm_num [avgLoss, lossAt, deltaAt, rollMean, priceAt, sumOver]
  have hg : avgGain [10, 20, 30] 2 1 = some 5 := by
    norm_num [avgGain, gainAt, deltaAt, rollMean, priceAt, sumOver]
  ⟨hl, hg, (c7_rsi_loss_zero [10, 20, 30] 2 1 5 hl hg).1 (by norm_num)⟩

/-- C8 counterexample: on the two-bar series [100, 100] with SMA windows
(1, 2) there are no trades, yet the Sharpe ratio is NaN, not 0: only one
strategy-return observation exists, so the sample standard deviation is
NaN, the `std != 0` guard passes, and the division produces NaN. -/
theorem c8_metrics_cx :
    tradesCount (smaSignal [100, 100] 1 2) 2 = 0 ∧
    sharpeOf (smaSignal [100, 100] 1 2) [100, 100] = SharpeVal.nan ∧
    SharpeVal.nan ≠ SharpeVal.zero := by
  refine ⟨?_, ?_, by simp⟩ <;>
    norm_num [tradesCount, countSat, sharpeOf, excessVar, excessCount, excessMean,
      excessSum, excessAt, strategyReturn, marketReturn, position, replSell,
      smaSignal, trendState, smaCol, rollMean, priceAt, olt, ogt, sumOver]

/-- C8 (amended): the win rate is the count of positive-return bars over
the count of nonzero-signal bars times 100 with a 0 fallback for zero
trades; the Sharpe ratio is 0 when the excess-return sample variance is
exactly 0, but NaN — not 0 — when the variance is undefined (fewer than
two defined return observations), because a NaN standard deviation passes
the `std != 0` guard. -/
theorem c8_metrics_guards (prices : List ℚ) (sig : Nat → Int) :
    winRate sig prices =
      (if tradesCount sig prices.length = 0 then 0
       else (winsCount sig prices : ℚ) / (tradesCount sig prices.length : ℚ) * 100) ∧
    (excessVar sig prices = some 0 → sharpeOf sig prices = SharpeVal.zero) ∧
    (excessVar sig prices = none → sharpeOf sig prices = SharpeVal.nan) := by
  refine ⟨?_, ?_, ?_⟩
  · unfold winRate
    rcases Nat.eq_zero_or_pos (tradesCount sig prices.length) with h | h
    · simp [h]
    · rw [if_pos h, if_neg (by omega)]
  · intro h
    unfold sharpeOf
    rw [h]
    simp
  · intro h
    unfold sharpeOf
    rw [h]

/-- Witness for C8: with an all-zero signal, the three-bar flat series
[100, 100, 100] has two defined excess returns of equal value, so the
variance is 0 and the Sharpe ratio is the guarded 0; the two-bar series
[100, 100] has a single defined excess return, so the variance is NaN and
the Sharpe ratio is NaN. -/
theorem c8_metrics_guards_witness :
    excessVar (fun _ => (0 : Int)) [100, 100, 100] = some 0 ∧
    sharpeOf (fun _ => (0 : Int)) [100, 100, 100] = SharpeVal.zero ∧
    excessVar (fun _ => (0 : Int)) [100, 100] = none ∧
    sharpeOf (fun _ => (0 : Int)) [100, 100] = SharpeVal.nan := by
  have h1 : excessVar (fun _ => (0 : Int)) [100, 100, 100] = some 0 := by
    norm_num [excessVar, excessCount, excessSum, excessAt, countSat, sumOver,
      strategyReturn, marketReturn, position, replSell, priceAt]
  have h2 : excessVar (fun _ => (0 : Int)) [100, 100] = none := by
    norm_num [excessVar, excessCount, excessAt, countSat, strategyReturn,
      marketReturn, position, replSell, priceAt]
  exact ⟨h1, (c8_metrics_guards [100, 100, 100] (fun _ => 0)).2.1 h1, h2,
    (c8_metrics_guards [100, 100] (fun _ => 0)).2.2 h2⟩

/-- C9 counterexample: on the single-bar series [100] the cumulative
strategy column is entirely NaN, so the drawdown minimum — and with it
max_drawdown — is NaN rather than a number ≤ 0. -/
theorem c9_drawdown_cx :
    maxDrawdown (smaSignal [100] 1 2) [100] = none ∧
    ¬ ∃ d : ℚ, maxDrawdown (smaSignal [100] 1 2) [100] = some d ∧ d ≤ 0 := by
  have h : maxDrawdown (smaSignal [100] 1 2) [100] = none := by
    norm_num [maxDrawdown, seriesMin, drawdownCol, cumStrategy, onePlusSR,
      strategyReturn, expMax]
  refine ⟨h, ?_⟩
  rintro ⟨d, hd, _⟩
  rw [h] at hd
  exact Option.noConfusion hd

/-- The strategy return of bar 0 is NaN, so `1 + strategy_return` is NaN
there. -/
theorem onePlusSR_zero (sig : Nat → Int) (prices : List ℚ) :
    onePlusSR sig prices 0 = none := rfl

/-- From bar 1 on, `1 + strategy_return` is a defined number. -/
theorem onePlusSR_succ (sig : Nat → Int) (prices : List ℚ) (t : Nat) :
    onePlusSR sig prices (t + 1) =
      some (1 + (position sig t : ℚ) *
        ((priceAt prices (t + 1) - priceAt prices t) / priceAt prices t)) := rfl

/-- The cumulative strategy column is NaN at bar 0. -/
theorem cumStrategy_zero (sig : Nat → Int) (prices : List ℚ) :
    cumStrategy sig prices 0 = none := rfl

/-- From bar 1 on, the cumulative strategy column carries the running
product accumulator. -/
theorem cumStrategy_succ (sig : Nat → Int) (prices : List ℚ) (t : Nat) :
    cumStrategy sig prices (t + 1) = some (cumAcc sig prices (t + 1)) := by
  unfold cumStrategy
  rw [onePlusSR_succ]
  rfl

/-- When the bar-0 signal is 0 (as every strategy variant emits), the
bar-0 position is 0, the bar-1 strategy return is 0, and the cumulative
product at bar 1 is exactly 1. -/
theorem cumAcc_one (sig : Nat → Int) (prices : List ℚ) (h0 : sig 0 = 0) :
    cumAcc sig prices 1 = 1 := by
  simp [cumAcc, onePlusSR, strategyReturn, marketReturn, position, replSell, h0]

/-- The expanding maximum at bar 1 is the bar-1 cumulative value (bar 0
is NaN and skipped). -/
theorem expMax_one (sig : Nat → Int) (prices : List ℚ) :
    expMax (cumStrategy sig prices) 1 = some (cumAcc sig prices 1) := by
  simp [expMax, cumStrategy_zero, cumStrategy_succ]

/-- From bar 1 on the running maximum of the cumulative column is
defined, at least 1, and bounds the current cumulative value. -/
theorem expMax_bound (sig : Nat → Int) (prices : List ℚ) (h0 : sig 0 = 0) :
    ∀ t, 1 ≤ t → ∃ m, expMax (cumStrategy sig prices) t = some m ∧
      1 ≤ m ∧ cumAcc sig prices t ≤ m := by
  intro t ht
  induction t, ht using Nat.le_induction with
  | base =>
      refine ⟨1, ?_, le_refl 1, ?_⟩
      · rw [expMax_one, cumAcc_one sig prices h0]
      · rw [cumAcc_one sig prices h0]
  | succ t ht ih =>
      obtain ⟨m, hm, h1m, _⟩ := ih
      refine ⟨max m (cumAcc sig prices (t + 1)), ?_, ?_, ?_⟩
      · simp [expMax, hm, cumStrategy_succ]
      · exact le_trans h1m (le_max_left _ _)
      · exact le_max_right _ _

/-- The drawdown column is NaN at bar 0. -/
theorem drawdownCol_zero (sig : Nat → Int) (prices : List ℚ) :
    drawdownCol sig prices 0 = none := by
  unfold drawdownCol
  rw [cumStrategy_zero]

/-- From bar 1 on the drawdown is defined and never positive. -/
theorem drawdownCol_nonpos (sig : Nat → Int) (prices : List ℚ) (h0 : sig 0 = 0) :
    ∀ t, 1 ≤ t → ∃ d, drawdownCol sig prices t = some d ∧ d ≤ 0 := by
  intro t ht
  obtain ⟨m, hm, h1m, hle⟩ := expMax_bound sig prices h0 t ht
  obtain ⟨k, rfl⟩ : ∃ k, t = k + 1 := ⟨t - 1, by omega⟩
  have hm0 : (0 : ℚ) < m := lt_of_lt_of_le zero_lt_one h1m
  refine ⟨(cumAcc sig prices (k + 1) - m) / m, ?_, ?_⟩
  · unfold drawdownCol
    rw [cumStrategy_succ, hm]
  · exact div_nonpos_of_nonpos_of_nonneg (sub_nonpos.mpr hle) (le_of_lt hm0)

/-- The bar-1 drawdown is exactly 0: the bar-1 cumulative value is its
own running maximum. -/
theorem drawdownCol_one (sig : Nat → Int) (prices : List ℚ) :
    drawdownCol sig prices 1 = some 0 := by
  unfold drawdownCol
  rw [cumStrategy_succ, expMax_one]
  simp

/-- For a series of at least two bars the skipna minimum of the drawdown
column is a defined, nonpositive number. -/
theorem seriesMin_drawdown_nonpos (sig : Nat → Int) (prices : List ℚ)
    (h0 : sig 0 = 0) :
    ∀ n, 2 ≤ n → ∃ d, seriesMin (drawdownCol sig prices) n = some d ∧ d ≤ 0 := by
  intro n hn
  induction n, hn using Nat.le_induction with
  | base =>
      refine ⟨0, ?_, le_refl 0⟩
      simp [seriesMin, drawdownCol_zero, drawdownCol_one sig prices]
  | succ n hn ih =>
      obtain ⟨d, hd, hdle⟩ := ih
      obtain ⟨v, hv, hvle⟩ := drawdownCol_nonpos sig prices h0 n (by omega)
      refine ⟨min d v, ?_, le_trans (min_le_left d v) hdle⟩
      simp [seriesMin, hd, hv]

/-- Scaling by a nonnegative constant commutes with the skipna minimum. -/
theorem seriesMin_map_mul (x : Nat → Option ℚ) (c : ℚ) (hc : 0 ≤ c) :
    ∀ n, seriesMin (fun t => (x t).map (fun d => d * c)) n =
      (seriesMin x n).map (fun d => d * c) := by
  intro n
  induction n with
  | zero => rfl
  | succ n ih =>
      have hmin : ∀ a b : ℚ, min a b * c = min (a * c) (b * c) := by
        intro a b
        rcases le_total a b with h | h
        · rw [min_eq_left h, min_eq_left (mul_le_mul_of_nonneg_right h hc)]
        · rw [min_eq_right h, min_eq_right (mul_le_mul_of_nonneg_right h hc)]
      simp only [seriesMin, ih]
      rcases seriesMin x n with _ | m <;> rcases hx : x n with _ | v <;>
        simp [hx, hmin]

/-- Under a non-decreasing cumulative column the running maximum equals
the current value from bar 1 on. -/
theorem expMax_eq_of_mono (sig : Nat → Int) (prices : List ℚ) (n : Nat)
    (hmono : ∀ t, 1 ≤ t → t + 1 < n →
      cumAcc sig prices t ≤ cumAcc sig prices (t + 1)) :
    ∀ t, 1 ≤ t → t < n →
      expMax (cumStrategy sig prices) t = some (cumAcc sig prices t) := by
  intro t ht
  induction t, ht using Nat.le_induction with
  | base => exact fun _ => expMax_one sig prices
  | succ t ht ih =>
      intro hlt
      have hterm : expMax (cumStrategy sig prices) t = some (cumAcc sig prices t) :=
        ih (by omega)
      simp only [expMax, hterm, cumStrategy_succ]
      rw [max_eq_right (hmono t ht hlt)]

/-- Under a non-decreasing cumulative column every defined drawdown entry
is exactly 0. -/
theorem drawdownCol_eq_zero_of_mono (sig : Nat → Int) (prices : List ℚ) (n : Nat)
    (hmono : ∀ t, 1 ≤ t → t + 1 < n →
      cumAcc sig prices t ≤ cumAcc sig prices (t + 1)) :
    ∀ t, 1 ≤ t → t < n → drawdownCol sig prices t = some 0 := by
  intro t ht hlt
  obtain ⟨k, rfl⟩ : ∃ k, t = k + 1 := ⟨t - 1, by omega⟩
  unfold drawdownCol
  rw [cumStrategy_succ, expMax_eq_of_mono sig prices n hmono (k + 1) ht hlt]
  simp

/-- Under a non-decreasing cumulative column the skipna minimum of the
drawdown column is 0 for any series of at least two bars. -/
theorem seriesMin_drawdown_zero_of_mono (sig : Nat → Int) (prices : List ℚ)
    (n : Nat)
    (hmono : ∀ t, 1 ≤ t → t + 1 < n →
      cumAcc sig prices t ≤ cumAcc sig prices (t + 1)) :
    ∀ m, 2 ≤ m → m ≤ n → seriesMin (drawdownCol sig prices) m = some 0 := by
  intro m hm
  induction m, hm using Nat.le_induction with
  | base =>
      intro hn
      simp [seriesMin, drawdownCol_zero,
        drawdownCol_eq_zero_of_mono sig prices n hmono 1 (le_refl 1) (by omega)]
  | succ m hm ih =>
      intro hn
      have h1 := ih (by omega)
      have h2 := drawdownCol_eq_zero_of_mono sig prices n hmono m (by omega)
        (by omega)
      simp [seriesMin, h1, h2]

/-- C9 (amended): max_drawdown is the skipna minimum over all bars of
`(cumulative - running_max) / running_max * 100`; for every series of at
least two (positive-price) bars it is a defined value ≤ 0, and it is
exactly 0 whenever the cumulative strategy column is monotonically
non-decreasing over its defined range — but for a single-bar series it is
NaN, not a number.  The positivity hypothesis marks the domain on which
the rational embedding of the float division agrees with the source; the
bar-0 signal is 0 for every strategy variant. -/
theorem c9_drawdown_bounds (prices : List ℚ) (sig : Nat → Int)
    (h2 : 2 ≤ prices.length)
    (_hpos : ∀ i, i < prices.length → 0 < priceAt prices i)
    (h0 : sig 0 = 0) :
    maxDrawdown sig prices =
      seriesMin (fun t => (drawdownCol sig prices t).map (fun d => d * 100))
        prices.length ∧
    (∃ d, maxDrawdown sig prices = some d ∧ d ≤ 0) ∧
    ((∀ t, 1 ≤ t → t + 1 < prices.length →
        cumAcc sig prices t ≤ cumAcc sig prices (t + 1)) →
      maxDrawdown sig prices = some 0) := by
  refine ⟨?_, ?_, ?_⟩
  · rw [seriesMin_map_mul (drawdownCol sig prices) 100 (by norm_num)]
    rfl
  · obtain ⟨d, hd, hdle⟩ :=
      seriesMin_drawdown_nonpos sig prices h0 prices.length h2
    refine ⟨d * 100, ?_, ?_⟩
    · unfold maxDrawdown
      rw [hd]
      rfl
    · exact mul_nonpos_of_nonpos_of_nonneg hdle (by norm_num)
  · intro hmono
    have h := seriesMin_drawdown_zero_of_mono sig prices prices.length hmono
      prices.length h2 (le_refl _)
    unfold maxDrawdown
    rw [h]
    simp

/-- Witness for C9: the two-bar flat series [100, 100] with an all-zero
signal has a constant cumulative column, so max_drawdown is a defined
value, namely exactly 0. -/
theorem c9_drawdown_bounds_witness :
    maxDrawdown (fun _ => (0 : Int)) [100, 100] = some 0 ∧
    (∃ d, maxDrawdown (fun _ => (0 : Int)) [100, 100] = some d ∧ d ≤ 0) := by
  have H := c9_drawdown_bounds [100, 100] (fun _ => 0) (by norm_num)
    (fun i hi => by
      have hi2 : i < 2 := by simpa using hi
      interval_cases i <;> norm_num [priceAt]) rfl
  refine ⟨H.2.2 (fun t h1 hlt => ?_), H.2.1⟩
  have hlt2 : t + 1 < 2 := by simpa using hlt
  omega

/-- C10: the lazy-generation guard of `get_current_signal` never fires
for a non-empty series.  On prices [10, 20] with SMA windows (1, 2), a
freshly constructed strategy (signal column still the initial zeros)
returns HOLD at the last bar, although generating signals would put a +1
(BUY) there; the guard `len(self.signals) == 0` is false because
`__init__` already filled one row per bar. -/
theorem c10_current_signal_eval :
    getCurrentSignal (initState [10, 20]) = some (SigLabel.HOLD, 20, 1) ∧
    getCurrentSignal (smaGenerated [10, 20] 1 2) = some (SigLabel.BUY, 20, 1) ∧
    (initState [10, 20]).length ≠ 0 := by
  norm_num [getCurrentSignal, initState, smaGenerated, labelOf, smaSignal,
    trendState, smaCol, rollMean, priceAt, olt, ogt, sumOver]

end Trading
